import Mathlib

/-!
Shallow embedding of the `webservice` crate (`src/webservice/src/lib.rs` and
`src/webservice/src/thread.rs`): HTTP response serialization, route-pattern
construction, the per-connection handler with its bounded read-retry loop and
route-table scan, the thread pool with its teardown sequence, and the accept
loop's shutdown polling.

Conventions of the embedding:
- Rust `String` / `&str` become Lean `String`; byte buffers become `List Nat`
  (each element one byte value); `str::as_bytes()` becomes UTF-8 encoding.
- The 1024-byte zero-initialized read buffer is modelled by padding the data
  of the one successful `read` with zero bytes up to length 1024.
- A `Read` stream is modelled by the sequence of outcomes its successive
  `read` calls produce (`Nat → ReadOutcome`).
- Fallible Rust functions return `Except`; the bytes `handle_connection`
  writes to the stream are its `.ok` result (an `.error` result corresponds
  to returning the error before any response byte is written).
- `HashMap` iteration is modelled by a list of key-value pairs in iteration
  order (the order is unspecified in Rust; the list is universally
  quantified over).
-/

set_option maxRecDepth 4000

/-- The `io::ErrorKind` values distinguished by the code, plus an `other`
constructor standing for every remaining kind (tagged to keep distinct
errors distinct). -/
inductive IOErrorKind where
  | wouldBlock
  | interrupted
  | invalidInput
  | other (tag : Nat)
deriving DecidableEq, Repr

/-- The `HTTPMethod` enum from lib.rs. -/
inductive HTTPMethod where
  | Get
  | Post
deriving DecidableEq, Repr

/-- The `fmt::Display` impl for `HTTPMethod`. -/
def HTTPMethod.render : HTTPMethod → String
  | .Get => "GET"
  | .Post => "POST"

/-- The `HTTPResponse` struct from lib.rs: a status (`u32`, modelled as `Nat`) and
optional UTF-8 content. -/
structure HTTPResponse where
  status : Nat
  content : Option String
deriving DecidableEq, Repr

/-- The `HTTPResponse::new` constructor. -/
def HTTPResponse.new (status : Nat) : HTTPResponse :=
  { status := status, content := none }

/-- The `HTTPResponse::with_content` builder. -/
def HTTPResponse.with_content (self : HTTPResponse) (content : String) : HTTPResponse :=
  { self with content := some content }

/-- The `fmt::Display` impl for `HTTPResponse`. Rust's `content.len()` is the
byte length of the UTF-8 encoded string, hence `String.utf8ByteSize`. -/
def HTTPResponse.serialize (r : HTTPResponse) : String :=
  match r.content with
  | some content =>
      "HTTP/1.1 " ++ toString r.status ++ "\r\nContent-Length: "
        ++ toString content.utf8ByteSize ++ "\r\n\r\n" ++ content
  | none => "HTTP/1.1 " ++ toString r.status ++ "\r\n\r\n"

/-- The `create_pattern` function from lib.rs. The source recurses with path `"/"` when
`path` is empty; since `"/"` is non-empty that call immediately takes the
format branch, so the recursion is unrolled one step here to keep the
definition structurally reducible. -/
def create_pattern (method : HTTPMethod) (path : String) : String :=
  if path = "" then method.render ++ " " ++ "/" ++ " HTTP/1.1\r\n"
  else method.render ++ " " ++ path ++ " HTTP/1.1\r\n"

/-- Rust `str::as_bytes()`: the UTF-8 bytes of a string, as `Nat` values (the
same byte list that `String.toUTF8` packs into a `ByteArray`). -/
def strToBytes (s : String) : List Nat :=
  (s.data.flatMap String.utf8EncodeChar).map (fun b => b.toNat)

/-- An `HTTPHandle` handler (`Box<dyn Fn() -> io::Result<HTTPResponse>>`). -/
def HTTPHandle : Type :=
  Unit → Except IOErrorKind HTTPResponse

/-- The outcome of one `stream.read(&mut buffer)` call: `ok data` is a
successful read that fills the buffer with the bytes `data` (possibly empty,
covering `Ok(0)`), `err k` is a failure of kind `k`. -/
inductive ReadOutcome where
  | ok (data : List Nat)
  | err (kind : IOErrorKind)
deriving Repr

/-- The `for _ in 0..16` read-retry loop of `handle_connection`, with `i` the
index of the next `read` call, `fuel` the remaining loop iterations and
`sleeps` the 50 ms sleeps performed so far. `Ok(_)` breaks with the data
read; a `WouldBlock` error sleeps 50 ms and retries; any other error returns
it. Running out of fuel leaves the buffer untouched (no data). -/
def readAttempts (stream : Nat → ReadOutcome) :
    Nat → Nat → List Nat → Except IOErrorKind (List Nat) × List Nat
  | _, 0, sleeps => (.ok [], sleeps)
  | i, fuel + 1, sleeps =>
      match stream i with
      | .ok data => (.ok data, sleeps)
      | .err .wouldBlock => readAttempts stream (i + 1) fuel (sleeps ++ [50])
      | .err e => (.error e, sleeps)

/-- The whole read phase of `handle_connection`: at most 16 attempts,
starting from the first `read` outcome with no sleeps performed yet. -/
def readPhase (stream : Nat → ReadOutcome) : Except IOErrorKind (List Nat) × List Nat :=
  readAttempts stream 0 16 []

/-- The `[0; 1024]` buffer after a read that produced `data`: the data bytes
followed by the untouched zero bytes, truncated to the buffer size. -/
def padBuffer (data : List Nat) : List Nat :=
  (data ++ List.replicate 1024 0).take 1024

/-- The `for (pattern, handle) in handles.iter()` scan of `handle_connection`:
`acc` is the current `response` variable. Every pattern whose bytes are a
prefix of the buffer has its handler invoked; a handler error propagates
immediately via `?`; a handler success overwrites `acc`. Note the loop has no
`break`: later matches overwrite earlier ones. -/
def routeLookupAux (buffer : List Nat) :
    List (String × HTTPHandle) → Option HTTPResponse → Except IOErrorKind (Option HTTPResponse)
  | [], acc => .ok acc
  | (pat, handle) :: rest, acc =>
      if List.isPrefixOf (strToBytes pat) buffer then
        match handle () with
        | .ok resp => routeLookupAux buffer rest (some resp)
        | .error e => .error e
      else routeLookupAux buffer rest acc

/-- The `HTTP_CONTENT_404` constant of lib.rs (apostrophes escaped). -/
def HTTP_CONTENT_404 : String :=
  "<!DOCTYPE html>\n<html lang=\"en\">\n  <head>\n    <meta charset=\"utf-8\">\n    <title>Hello!</title>\n  </head>\n  <body>\n    <h1>Oops!</h1>\n    <p>Sorry, I don\x27t know what you\x27re asking for.</p>\n  </body>\n</html>\n"

/-- The `handle_connection` function from lib.rs. The read phase either returns an error
(nothing written) or yields the buffer; an all-zero first byte aborts with
`InvalidInput` (nothing written); the route scan either propagates a handler
error (nothing written) or yields an optional response; the response (or the
404 fallback) is serialized and its string is what `write_all` sends. -/
def handleConnection (handles : List (String × HTTPHandle)) (stream : Nat → ReadOutcome) :
    Except IOErrorKind String :=
  match (readPhase stream).1 with
  | .error e => .error e
  | .ok data =>
      if (padBuffer data).getD 0 0 = 0 then .error .invalidInput
      else
        match routeLookupAux (padBuffer data) handles none with
        | .error e => .error e
        | .ok response =>
            .ok (HTTPResponse.serialize
              (match response with
                | some resp => resp
                | none => (HTTPResponse.new 404).with_content HTTP_CONTENT_404))

/-- The `PoolErrorKind` enum from thread.rs. -/
inductive PoolErrorKind where
  | InvalidSize
deriving DecidableEq, Repr

/-- The `PoolError` struct from thread.rs. -/
structure PoolError where
  kind : PoolErrorKind
  message : String
deriving DecidableEq, Repr

/-- A `Worker` from thread.rs: an id and a joinable thread handle (held
until `Drop` takes it). The thread's behaviour is not part of this record;
what matters for the teardown sequence is its presence. -/
structure Worker where
  id : Nat
  thread : Option Unit
deriving DecidableEq, Repr

/-- Function `Worker::new` from thread.rs: spawns the thread, so the handle is present. -/
def Worker.new (id : Nat) : Worker :=
  { id := id, thread := some () }

/-- The `ThreadPool` struct from thread.rs (the sender half of the job channel carries
no state relevant to the embedded claims). -/
structure ThreadPool where
  workers : List Worker
deriving DecidableEq, Repr

/-- The `ThreadPool::new` constructor from thread.rs: size 0 is rejected with
`InvalidSize`; otherwise workers with ids `0..size` are spawned, all
sharing the single job-queue receiver. -/
def ThreadPool.new (size : Nat) : Except PoolError ThreadPool :=
  if size = 0 then
    .error { kind := .InvalidSize,
             message := "pool size has to be within the inclusive range of [1, usize::max]" }
  else
    .ok { workers := (List.range size).map Worker.new }

/-- The observable actions of `Drop for ThreadPool`, in program order. -/
inductive PoolAction where
  | sendTerminate
  | joinWorker (id : Nat)
deriving DecidableEq, Repr

/-- The action sequence of `Drop for ThreadPool`: first one
`Message::Terminate` send per worker, then for each worker in vector order a
join of its thread when the handle is still present. A `join` returns only
once the joined thread has finished, so the caller of `drop` is blocked on
each action of the second phase until that worker has exited its loop. -/
def ThreadPool.dropActions (p : ThreadPool) : List PoolAction :=
  (p.workers.map (fun _ => PoolAction.sendTerminate))
    ++ (p.workers.filterMap (fun w => w.thread.map (fun _ => PoolAction.joinWorker w.id)))

/-- The result of `mpsc::Receiver::try_recv` on the shutdown channel: a
received signal, or one of the two `TryRecvError` variants. -/
inductive TryRecvResult where
  | ok
  | errEmpty
  | errDisconnected
deriving DecidableEq, Repr

/-- What one accept-loop iteration does after handling its stream result:
keep listening, or stop (exit the `for` loop). -/
inductive LoopOutcome where
  | keepListening
  | stopped
deriving DecidableEq, Repr

/-- The shutdown-polling arm of `HTTPServer::listen` (the
`Err(WouldBlock)` branch of the accept loop): when a shutdown receiver is
configured (`shutdown = true`), an `Empty` error continues the loop, any
other channel error is logged and clears `self.shutdown` (then the loop
continues), and a received value breaks the loop. With no receiver
configured the branch does nothing and the loop continues. Returns the new
`shutdown` state and the loop outcome. -/
def pollShutdownOnWouldBlock (shutdown : Bool) (recv : TryRecvResult) : Bool × LoopOutcome :=
  if shutdown then
    match recv with
    | .errEmpty => (true, .keepListening)
    | .errDisconnected => (false, .keepListening)
    | .ok => (true, .stopped)
  else (false, .keepListening)

/-- A run of successive would-block accept iterations of `HTTPServer::listen`
threading the `shutdown` state through `pollShutdownOnWouldBlock`, stopping
as soon as one iteration breaks the loop. -/
def runShutdownPolls (shutdown : Bool) : List TryRecvResult → Bool × LoopOutcome
  | [] => (shutdown, .keepListening)
  | r :: rest =>
      match pollShutdownOnWouldBlock shutdown r with
      | (sd, .keepListening) => runShutdownPolls sd rest
      | (sd, .stopped) => (sd, .stopped)

/-- The handlers of the registered patterns that are byte-prefixes of the
buffer, in iteration order. -/
def matchedHandlers (handles : List (String × HTTPHandle)) (buffer : List Nat) :
    List HTTPHandle :=
  (handles.filter (fun ph => List.isPrefixOf (strToBytes ph.1) buffer)).map Prod.snd

/-- Running a list of handlers in order the way the scan loop does: each is
invoked, an error propagates immediately, a success overwrites the
accumulator. -/
def runMatched : List HTTPHandle → Option HTTPResponse → Except IOErrorKind (Option HTTPResponse)
  | [], acc => .ok acc
  | h :: rest, _acc =>
      match h () with
      | .ok resp => runMatched rest (some resp)
      | .error e => .error e

theorem runMatched_cons_ok (h : HTTPHandle) (rest : List HTTPHandle)
    (acc : Option HTTPResponse) (r : HTTPResponse) (hr : h () = .ok r) :
    runMatched (h :: rest) acc = runMatched rest (some r) := by
  simp [runMatched, hr]

theorem runMatched_cons_err (h : HTTPHandle) (rest : List HTTPHandle)
    (acc : Option HTTPResponse) (e : IOErrorKind) (he : h () = .error e) :
    runMatched (h :: rest) acc = .error e := by
  simp [runMatched, he]

theorem routeLookupAux_eq_runMatched (buffer : List Nat) :
    ∀ (handles : List (String × HTTPHandle)) (acc : Option HTTPResponse),
      routeLookupAux buffer handles acc = runMatched (matchedHandlers handles buffer) acc := by
  intro handles
  induction handles with
  | nil => intro _; rfl
  | cons ph rest ih =>
      intro acc
      obtain ⟨pat, handle⟩ := ph
      by_cases hpre : List.isPrefixOf (strToBytes pat) buffer
      · cases hh : handle () with
        | ok resp =>
            rw [show matchedHandlers ((pat, handle) :: rest) buffer
                  = handle :: matchedHandlers rest buffer by
                simp [matchedHandlers, List.filter_cons, hpre]]
            rw [runMatched_cons_ok handle _ acc resp hh]
            simp [routeLookupAux, hpre, hh, ih]
        | error e =>
            rw [show matchedHandlers ((pat, handle) :: rest) buffer
                  = handle :: matchedHandlers rest buffer by
                simp [matchedHandlers, List.filter_cons, hpre]]
            rw [runMatched_cons_err handle _ acc e hh]
            simp [routeLookupAux, hpre, hh]
      · rw [show matchedHandlers ((pat, handle) :: rest) buffer
              = matchedHandlers rest buffer by
            simp [matchedHandlers, List.filter_cons, hpre]]
        simp [routeLookupAux, hpre, ih]

theorem runMatched_all_ok :
    ∀ (ms : List HTTPHandle) (h : HTTPHandle) (r : HTTPResponse) (acc : Option HTTPResponse),
      (∀ h' ∈ ms, ∃ r', h' () = .ok r') →
      ms.getLast? = some h → h () = .ok r →
      runMatched ms acc = .ok (some r) := by
  intro ms
  induction ms with
  | nil => intro h r acc _ hlast; simp at hlast
  | cons h0 rest ih =>
      intro h r acc hall hlast hr
      obtain ⟨r0, hr0⟩ := hall h0 (List.mem_cons_self h0 rest)
      cases rest with
      | nil =>
          simp at hlast
          subst hlast
          rw [hr] at hr0
          cases hr0
          rw [runMatched_cons_ok h0 [] acc r hr]
          rfl
      | cons h1 rest' =>
          rw [List.getLast?_cons_cons] at hlast
          rw [runMatched_cons_ok h0 (h1 :: rest') acc r0 hr0]
          exact ih h r (some r0)
            (fun h' hh' => hall h' (List.mem_cons_of_mem h0 hh')) hlast hr

theorem runMatched_err :
    ∀ (pre : List HTTPHandle) (h : HTTPHandle) (post : List HTTPHandle)
      (e : IOErrorKind) (acc : Option HTTPResponse),
      (∀ h' ∈ pre, ∃ r', h' () = .ok r') → h () = .error e →
      runMatched (pre ++ h :: post) acc = .error e := by
  intro pre
  induction pre with
  | nil =>
      intro h post e acc _ he
      rw [List.nil_append]
      exact runMatched_cons_err h post acc e he
  | cons h0 rest ih =>
      intro h post e acc hall he
      obtain ⟨r0, hr0⟩ := hall h0 (List.mem_cons_self h0 rest)
      rw [List.cons_append, runMatched_cons_ok h0 _ acc r0 hr0]
      exact ih h post e (some r0)
        (fun h' hh' => hall h' (List.mem_cons_of_mem h0 hh')) he

theorem handleConnection_read_err (handles : List (String × HTTPHandle))
    (stream : Nat → ReadOutcome) (e : IOErrorKind)
    (hread : (readPhase stream).1 = .error e) :
    handleConnection handles stream = .error e := by
  unfold handleConnection
  rw [hread]

theorem handleConnection_read_ok (handles : List (String × HTTPHandle))
    (stream : Nat → ReadOutcome) (data : List Nat)
    (hread : (readPhase stream).1 = .ok data)
    (hbyte : ¬ (padBuffer data).getD 0 0 = 0) :
    handleConnection handles stream
      = match routeLookupAux (padBuffer data) handles none with
        | .error e => .error e
        | .ok response =>
            .ok (HTTPResponse.serialize
              (match response with
                | some resp => resp
                | none => (HTTPResponse.new 404).with_content HTTP_CONTENT_404)) := by
  unfold handleConnection
  rw [hread]
  exact if_neg hbyte

theorem handleConnection_zero_buffer (handles : List (String × HTTPHandle))
    (stream : Nat → ReadOutcome) (data : List Nat)
    (hread : (readPhase stream).1 = .ok data)
    (hbyte : (padBuffer data).getD 0 0 = 0) :
    handleConnection handles stream = .error .invalidInput := by
  unfold handleConnection
  rw [hread]
  exact if_pos hbyte

theorem readAttempts_step_ok (stream : Nat → ReadOutcome) (i fuel : Nat)
    (sleeps data : List Nat) (h : stream i = .ok data) :
    readAttempts stream i (fuel + 1) sleeps = (.ok data, sleeps) := by
  simp [readAttempts, h]

theorem readAttempts_step_wb (stream : Nat → ReadOutcome) (i fuel : Nat)
    (sleeps : List Nat) (h : stream i = .err .wouldBlock) :
    readAttempts stream i (fuel + 1) sleeps
      = readAttempts stream (i + 1) fuel (sleeps ++ [50]) := by
  simp [readAttempts, h]

theorem readAttempts_step_err (stream : Nat → ReadOutcome) (i fuel : Nat)
    (sleeps : List Nat) (k : IOErrorKind) (hk : k ≠ .wouldBlock)
    (h : stream i = .err k) :
    readAttempts stream i (fuel + 1) sleeps = (.error k, sleeps) := by
  cases k with
  | wouldBlock => exact absurd rfl hk
  | interrupted => simp [readAttempts, h]
  | invalidInput => simp [readAttempts, h]
  | other t => simp [readAttempts, h]

theorem readAttempts_later_err (stream : Nat → ReadOutcome) :
    ∀ (j : Nat) (i fuel : Nat) (sleeps : List Nat) (k : IOErrorKind),
      j < fuel → (∀ t, t < j → stream (i + t) = .err .wouldBlock) →
      stream (i + j) = .err k → k ≠ .wouldBlock →
      readAttempts stream i fuel sleeps = (.error k, sleeps ++ List.replicate j 50) := by
  intro j
  induction j with
  | zero =>
      intro i fuel sleeps k hfuel _ hj hk
      cases fuel with
      | zero => omega
      | succ fuel' =>
          rw [Nat.add_zero] at hj
          rw [readAttempts_step_err stream i fuel' sleeps k hk hj]
          simp
  | succ j' ih =>
      intro i fuel sleeps k hfuel hwb hj hk
      cases fuel with
      | zero => omega
      | succ fuel' =>
          have h0 : stream i = .err .wouldBlock := by
            have := hwb 0 (Nat.succ_pos j')
            rwa [Nat.add_zero] at this
          rw [readAttempts_step_wb stream i fuel' sleeps h0]
          have hwb' : ∀ t, t < j' → stream (i + 1 + t) = .err .wouldBlock := by
            intro t ht
            have := hwb (t + 1) (Nat.succ_lt_succ ht)
            rwa [show i + (t + 1) = i + 1 + t by omega] at this
          have hj' : stream (i + 1 + j') = .err k := by
            rwa [show i + 1 + j' = i + (j' + 1) by omega]
          rw [ih (i + 1) fuel' (sleeps ++ [50]) k (by omega) hwb' hj' hk]
          simp [List.replicate_succ]

theorem readAttempts_later_ok (stream : Nat → ReadOutcome) :
    ∀ (j : Nat) (i fuel : Nat) (sleeps data : List Nat),
      j < fuel → (∀ t, t < j → stream (i + t) = .err .wouldBlock) →
      stream (i + j) = .ok data →
      readAttempts stream i fuel sleeps = (.ok data, sleeps ++ List.replicate j 50) := by
  intro j
  induction j with
  | zero =>
      intro i fuel sleeps data hfuel _ hj
      cases fuel with
      | zero => omega
      | succ fuel' =>
          rw [Nat.add_zero] at hj
          rw [readAttempts_step_ok stream i fuel' sleeps data hj]
          simp
  | succ j' ih =>
      intro i fuel sleeps data hfuel hwb hj
      cases fuel with
      | zero => omega
      | succ fuel' =>
          have h0 : stream i = .err .wouldBlock := by
            have := hwb 0 (Nat.succ_pos j')
            rwa [Nat.add_zero] at this
          rw [readAttempts_step_wb stream i fuel' sleeps h0]
          have hwb' : ∀ t, t < j' → stream (i + 1 + t) = .err .wouldBlock := by
            intro t ht
            have := hwb (t + 1) (Nat.succ_lt_succ ht)
            rwa [show i + (t + 1) = i + 1 + t by omega] at this
          have hj' : stream (i + 1 + j') = .ok data := by
            rwa [show i + 1 + j' = i + (j' + 1) by omega]
          rw [ih (i + 1) fuel' (sleeps ++ [50]) data (by omega) hwb' hj']
          simp [List.replicate_succ]

theorem readAttempts_all_wb (stream : Nat → ReadOutcome) :
    ∀ (fuel i : Nat) (sleeps : List Nat),
      (∀ t, t < fuel → stream (i + t) = .err .wouldBlock) →
      readAttempts stream i fuel sleeps = (.ok [], sleeps ++ List.replicate fuel 50) := by
  intro fuel
  induction fuel with
  | zero => intro i sleeps _; simp [readAttempts]
  | succ fuel' ih =>
      intro i sleeps hwb
      have h0 : stream i = .err .wouldBlock := by
        have := hwb 0 (Nat.succ_pos fuel')
        rwa [Nat.add_zero] at this
      rw [readAttempts_step_wb stream i fuel' sleeps h0]
      have hwb' : ∀ t, t < fuel' → stream (i + 1 + t) = .err .wouldBlock := by
        intro t ht
        have := hwb (t + 1) (Nat.succ_lt_succ ht)
        rwa [show i + (t + 1) = i + 1 + t by omega] at this
      rw [ih (i + 1) (sleeps ++ [50]) hwb']
      simp [List.replicate_succ]

/-- C3: serializing an `HTTPResponse` with body `b` yields exactly
`HTTP/1.1 <s>\r\nContent-Length: <n>\r\n\r\n<b>` where `n` is the UTF-8 byte
length of `b` (not the character count, as the non-ASCII conjunct shows),
and serializing without a body yields exactly `HTTP/1.1 <s>\r\n\r\n`;
in particular `serialize(200, None)`, `serialize(200, Some("Hello, World!"))`
and `serialize(403, None)` produce the three strings of the claim. -/
theorem c3_response_serialization :
    (∀ (s : Nat) (b : String),
      HTTPResponse.serialize { status := s, content := some b }
        = "HTTP/1.1 " ++ toString s ++ "\r\nContent-Length: "
            ++ toString b.utf8ByteSize ++ "\r\n\r\n" ++ b)
  ∧ (∀ s : Nat, HTTPResponse.serialize { status := s, content := none }
        = "HTTP/1.1 " ++ toString s ++ "\r\n\r\n")
  ∧ (HTTPResponse.new 200).serialize = "HTTP/1.1 200\r\n\r\n"
  ∧ ((HTTPResponse.new 200).with_content "Hello, World!").serialize
      = "HTTP/1.1 200\r\nContent-Length: 13\r\n\r\nHello, World!"
  ∧ (HTTPResponse.new 403).serialize = "HTTP/1.1 403\r\n\r\n"
  ∧ ((HTTPResponse.new 200).with_content "héllo").serialize
      = "HTTP/1.1 200\r\nContent-Length: 6\r\n\r\nhéllo"
  ∧ "héllo".utf8ByteSize = 6 ∧ "héllo".length = 5 :=
  ⟨fun _ _ => rfl, fun _ => rfl, by decide, by decide, by decide, by decide,
    by decide, by decide⟩

/-- C8: pattern construction normalizes the empty path to `/`, and for every
method `m` and non-empty path `p` produces `<m> <p> HTTP/1.1\r\n`. -/
theorem c8_create_pattern :
    create_pattern .Get "" = "GET / HTTP/1.1\r\n"
  ∧ create_pattern .Get "/" = "GET / HTTP/1.1\r\n"
  ∧ create_pattern .Post "/foo/bar" = "POST /foo/bar HTTP/1.1\r\n"
  ∧ ∀ (m : HTTPMethod) (p : String), p ≠ "" →
      create_pattern m p = m.render ++ " " ++ p ++ " HTTP/1.1\r\n" := by
  refine ⟨by decide, by decide, by decide, ?_⟩
  intro m p hp
  unfold create_pattern
  rw [if_neg hp]

/-- A concrete instance of the quantified conjunct of C8's theorem. -/
theorem c8_create_pattern_witness :
    create_pattern .Post "/x" = HTTPMethod.Post.render ++ " " ++ "/x" ++ " HTTP/1.1\r\n" :=
  c8_create_pattern.2.2.2 .Post "/x" (by decide)

/-- C4: `ThreadPool::new(0)` fails with an `InvalidSize` pool error, and for
every `s ≥ 1` construction succeeds with exactly `s` spawned workers carrying
ids `0..s` (each holding a live thread handle on the shared job queue). -/
theorem c4_threadpool_new :
    ThreadPool.new 0
      = .error { kind := .InvalidSize,
                 message := "pool size has to be within the inclusive range of [1, usize::max]" }
  ∧ ∀ s : Nat, 1 ≤ s → ∃ p : ThreadPool, ThreadPool.new s = .ok p
      ∧ p.workers.length = s
      ∧ p.workers.map Worker.id = List.range s
      ∧ ∀ w ∈ p.workers, w.thread = some () := by
  constructor
  · rfl
  · intro s hs
    refine ⟨{ workers := (List.range s).map Worker.new }, ?_, ?_, ?_, ?_⟩
    · unfold ThreadPool.new
      rw [if_neg (by omega)]
    · simp
    · rw [List.map_map]
      have hcomp : Worker.id ∘ Worker.new = id := rfl
      rw [hcomp, List.map_id]
    · intro w hw
      rw [List.mem_map] at hw
      obtain ⟨i, _, rfl⟩ := hw
      rfl

/-- A concrete instance of C4's theorem at pool size 3. -/
theorem c4_threadpool_new_witness :
    (1 : Nat) ≤ 3 ∧ ∃ p : ThreadPool, ThreadPool.new 3 = .ok p
      ∧ p.workers.length = 3
      ∧ p.workers.map Worker.id = List.range 3
      ∧ ∀ w ∈ p.workers, w.thread = some () :=
  ⟨by decide, c4_threadpool_new.2 3 (by decide)⟩

/-- C7: in the accept loop's would-block branch with a shutdown channel
configured, an empty poll keeps the loop listening with the channel intact, a
received signal stops the loop, and a disconnected-channel error keeps the
loop listening but clears the channel; once cleared, no sequence of further
poll results can ever stop the loop (the server can no longer be gracefully
stopped), so the clearing (and its log line) happens at most once. -/
theorem c7_shutdown_poll :
    pollShutdownOnWouldBlock true .errEmpty = (true, .keepListening)
  ∧ pollShutdownOnWouldBlock true .ok = (true, .stopped)
  ∧ pollShutdownOnWouldBlock true .errDisconnected = (false, .keepListening)
  ∧ (∀ r, pollShutdownOnWouldBlock false r = (false, .keepListening))
  ∧ (∀ rs, runShutdownPolls false rs = (false, .keepListening))
  ∧ (∀ rs, runShutdownPolls true (.errDisconnected :: rs) = (false, .keepListening)) := by
  have hfalse : ∀ rs, runShutdownPolls false rs = (false, .keepListening) := by
    intro rs
    induction rs with
    | nil => rfl
    | cons r rest ih => exact ih
  exact ⟨rfl, rfl, rfl, fun _ => rfl, hfalse, fun rs => hfalse rs⟩

/-- C2: dropping a `ThreadPool` of size `s` performs exactly `s`
`Terminate` sends (one per worker), all before any join, and then joins
every worker in worker-id order `0, 1, ..., s-1`; since each join blocks
until that worker's thread has finished its current job and exited, the
dropping caller is blocked until all in-flight jobs finish. -/
theorem c2_drop_sequence (s : Nat) (p : ThreadPool) (hs : 1 ≤ s)
    (hp : ThreadPool.new s = .ok p) :
    p.dropActions
        = List.replicate s PoolAction.sendTerminate
            ++ (List.range s).map PoolAction.joinWorker
  ∧ p.dropActions.count PoolAction.sendTerminate = s
  ∧ p.workers.length = s := by
  have hw : p.workers = (List.range s).map Worker.new := by
    unfold ThreadPool.new at hp
    rw [if_neg (by omega)] at hp
    cases hp
    rfl
  have h1 : ((List.range s).map Worker.new).map (fun _ => PoolAction.sendTerminate)
      = List.replicate s PoolAction.sendTerminate := by
    rw [List.map_map]
    have hcomp1 : ((fun _ => PoolAction.sendTerminate) ∘ Worker.new)
        = fun (_ : Nat) => PoolAction.sendTerminate := rfl
    rw [hcomp1, List.map_const', List.length_range]
  have h2 : ((List.range s).map Worker.new).filterMap
        (fun w => w.thread.map (fun _ => PoolAction.joinWorker w.id))
      = (List.range s).map PoolAction.joinWorker := by
    rw [List.filterMap_map]
    have hcomp : ((fun w => w.thread.map (fun _ => PoolAction.joinWorker w.id)) ∘ Worker.new)
        = some ∘ PoolAction.joinWorker := rfl
    rw [hcomp, List.filterMap_eq_map]
  have hmain : p.dropActions
      = List.replicate s PoolAction.sendTerminate
          ++ (List.range s).map PoolAction.joinWorker := by
    unfold ThreadPool.dropActions
    rw [hw, h1, h2]
  refine ⟨hmain, ?_, ?_⟩
  · rw [hmain, List.count_append, List.count_replicate]
    have : (List.count PoolAction.sendTerminate
        ((List.range s).map PoolAction.joinWorker)) = 0 := by
      rw [List.count_eq_zero]
      intro hmem
      rw [List.mem_map] at hmem
      obtain ⟨i, _, hcontra⟩ := hmem
      exact PoolAction.noConfusion hcontra
    rw [this]
    simp
  · rw [hw]
    simp

/-- A concrete instance of C2's theorem at pool size 2. -/
theorem c2_drop_sequence_witness :
    (ThreadPool.mk ((List.range 2).map Worker.new)).dropActions
      = List.replicate 2 PoolAction.sendTerminate
          ++ (List.range 2).map PoolAction.joinWorker :=
  (c2_drop_sequence 2 (ThreadPool.mk ((List.range 2).map Worker.new)) (by decide) rfl).1

/-- Scanning a route table in which no pattern is a byte-prefix of the
buffer leaves the `response` accumulator untouched. -/
theorem routeLookupAux_no_match (buffer : List Nat) :
    ∀ (handles : List (String × HTTPHandle)) (acc : Option HTTPResponse),
      (∀ ph ∈ handles, ¬ (List.isPrefixOf (strToBytes ph.1) buffer = true)) →
      routeLookupAux buffer handles acc = .ok acc := by
  intro handles
  induction handles with
  | nil => intro _ _; rfl
  | cons ph rest ih =>
      intro acc hno
      obtain ⟨pat, handle⟩ := ph
      have hph := hno (pat, handle) (List.mem_cons_self _ _)
      simp only [routeLookupAux]
      rw [if_neg hph]
      exact ih acc (fun ph' hm => hno ph' (List.mem_cons_of_mem _ hm))

/-- C5 counterexample: the claim says a read failing with an *interrupted*
condition is retried like would-block. It is not: with a first read failing
`Interrupted` and all later reads succeeding, `handle_connection` returns
the `Interrupted` error immediately (nothing written), while the identical
stream whose first failure is `WouldBlock` instead is retried and serves the
matched 200 response. -/
theorem c5_counterexample :
    handleConnection
        [("GET / HTTP/1.1\r\n", fun _ => .ok (HTTPResponse.new 200))]
        (fun i => if i = 0 then .err .interrupted else .ok (strToBytes "GET / HTTP/1.1\r\n"))
      = .error .interrupted
  ∧ handleConnection
        [("GET / HTTP/1.1\r\n", fun _ => .ok (HTTPResponse.new 200))]
        (fun i => if i = 0 then .err .wouldBlock else .ok (strToBytes "GET / HTTP/1.1\r\n"))
      = .ok "HTTP/1.1 200\r\n\r\n" :=
  ⟨rfl, rfl⟩

/-- C5 (amended): in `handle_connection` only a would-block read failure
triggers the 50 ms sleep and retry, bounded to 16 attempts; a read error of
any other kind — including interrupted — makes `handle_connection` return
that IO error at once; and an all-zero buffer after reading makes it return
`InvalidInput`. In all these cases the result is `.error`, i.e. no response
bytes are written to the connection. -/
theorem c5_read_error_handling (handles : List (String × HTTPHandle))
    (stream : Nat → ReadOutcome) :
    (∀ j k, j < 16 → (∀ t, t < j → stream t = .err .wouldBlock) →
        stream j = .err k → k ≠ .wouldBlock →
        handleConnection handles stream = .error k
          ∧ readPhase stream = (.error k, List.replicate j 50))
  ∧ (∀ j data, j < 16 → (∀ t, t < j → stream t = .err .wouldBlock) →
        stream j = .ok data →
        readPhase stream = (.ok data, List.replicate j 50))
  ∧ (∀ data, (readPhase stream).1 = .ok data → (padBuffer data).getD 0 0 = 0 →
        handleConnection handles stream = .error .invalidInput) := by
  refine ⟨?_, ?_, ?_⟩
  · intro j k hj hwb hjk hk
    have hr : readAttempts stream 0 16 [] = (.error k, [] ++ List.replicate j 50) :=
      readAttempts_later_err stream j 0 16 [] k hj
        (fun t ht => by simpa using hwb t ht) (by simpa using hjk) hk
    rw [List.nil_append] at hr
    have hrp : readPhase stream = (.error k, List.replicate j 50) := by
      rw [readPhase, hr]
    constructor
    · exact handleConnection_read_err handles stream k (by rw [hrp])
    · exact hrp
  · intro j data hj hwb hjd
    have hr : readAttempts stream 0 16 [] = (.ok data, [] ++ List.replicate j 50) :=
      readAttempts_later_ok stream j 0 16 [] data hj
        (fun t ht => by simpa using hwb t ht) (by simpa using hjd)
    rw [readPhase, hr, List.nil_append]
  · intro data hread hzero
    exact handleConnection_zero_buffer handles stream data hread hzero

/-- A concrete instance of C5's amended theorem: one would-block retry (one
50 ms sleep), then an error of another kind, which is returned at once. -/
theorem c5_read_error_handling_witness :
    handleConnection [] (fun i => if i = 0 then .err .wouldBlock else .err (.other 3))
      = .error (.other 3)
  ∧ readPhase (fun i => if i = 0 then .err .wouldBlock else .err (.other 3))
      = (.error (.other 3), List.replicate 1 50) :=
  (c5_read_error_handling [] (fun i => if i = 0 then .err .wouldBlock else .err (.other 3))).1
    1 (.other 3) (by decide)
    (by intro t ht
        have ht0 : t = 0 := by omega
        subst ht0
        rfl)
    rfl (by decide)

/-- C10: if all 16 bounded read attempts fail with would-block, the retry
loop exhausts after 16 sleeps of 50 ms, the untouched all-zero buffer fails
the first-byte check, and `handle_connection` returns `InvalidInput` — not
the would-block error. -/
theorem c10_exhausted_retries (handles : List (String × HTTPHandle))
    (stream : Nat → ReadOutcome)
    (hwb : ∀ t, t < 16 → stream t = .err .wouldBlock) :
    handleConnection handles stream = .error .invalidInput
  ∧ handleConnection handles stream ≠ .error .wouldBlock
  ∧ readPhase stream = (.ok [], List.replicate 16 50) := by
  have hr : readPhase stream = (.ok [], List.replicate 16 50) := by
    rw [readPhase, readAttempts_all_wb stream 16 0 [] (fun t ht => by simpa using hwb t ht),
      List.nil_append]
  have hmain : handleConnection handles stream = .error .invalidInput := by
    apply handleConnection_zero_buffer handles stream []
    · rw [hr]
    · rfl
  refine ⟨hmain, ?_, hr⟩
  rw [hmain]
  intro hcontra
  exact IOErrorKind.noConfusion (Except.error.inj hcontra)

/-- A concrete instance of C10's theorem: a stream that always would-blocks. -/
theorem c10_exhausted_retries_witness :
    handleConnection [] (fun _ => .err .wouldBlock) = .error .invalidInput
  ∧ handleConnection [] (fun _ => .err .wouldBlock) ≠ .error .wouldBlock
  ∧ readPhase (fun _ => .err .wouldBlock) = (.ok [], List.replicate 16 50) :=
  c10_exhausted_retries [] (fun _ => .err .wouldBlock) (fun _ _ => rfl)

/-- C6: when the read succeeds with a non-zero first byte and no registered
pattern is a byte-prefix of the buffer, `handle_connection` writes the
serialized 404 response carrying the constant `HTTP_CONTENT_404` HTML body,
rather than dropping the connection without a response. -/
theorem c6_no_match_404 (handles : List (String × HTTPHandle))
    (stream : Nat → ReadOutcome) (data : List Nat)
    (hread : (readPhase stream).1 = .ok data)
    (hbyte : (padBuffer data).getD 0 0 ≠ 0)
    (hnomatch : ∀ ph ∈ handles,
        ¬ (List.isPrefixOf (strToBytes ph.1) (padBuffer data) = true)) :
    handleConnection handles stream
      = .ok (((HTTPResponse.new 404).with_content HTTP_CONTENT_404).serialize) := by
  rw [handleConnection_read_ok handles stream data hread hbyte,
    routeLookupAux_no_match (padBuffer data) handles none hnomatch]

/-- A concrete instance of C6's theorem: a GET request against a table whose
only pattern does not prefix it. -/
theorem c6_no_match_404_witness :
    handleConnection
        [("POST /admin HTTP/1.1\r\n", fun _ => .ok (HTTPResponse.new 200))]
        (fun _ => .ok (strToBytes "GET / HTTP/1.1\r\n"))
      = .ok (((HTTPResponse.new 404).with_content HTTP_CONTENT_404).serialize) :=
  c6_no_match_404
    [("POST /admin HTTP/1.1\r\n", fun _ => .ok (HTTPResponse.new 200))]
    (fun _ => .ok (strToBytes "GET / HTTP/1.1\r\n"))
    (strToBytes "GET / HTTP/1.1\r\n")
    rfl (by decide)
    (by intro ph hm
        rw [List.mem_singleton] at hm
        subst hm
        decide)

/-- C9: when the read succeeds with a non-zero first byte and a matched
handler returns an error `e` (all matched handlers before it in iteration
order succeeding), `handle_connection` propagates `.error e` to its caller,
so no response bytes — not even the 404 fallback — are written. -/
theorem c9_handler_error_propagates (handles : List (String × HTTPHandle))
    (stream : Nat → ReadOutcome) (data : List Nat)
    (pre : List HTTPHandle) (h : HTTPHandle) (post : List HTTPHandle) (e : IOErrorKind)
    (hread : (readPhase stream).1 = .ok data)
    (hbyte : (padBuffer data).getD 0 0 ≠ 0)
    (hm : matchedHandlers handles (padBuffer data) = pre ++ h :: post)
    (hpre : ∀ h' ∈ pre, ∃ r', h' () = .ok r')
    (he : h () = .error e) :
    handleConnection handles stream = .error e := by
  have hrun : routeLookupAux (padBuffer data) handles none = .error e := by
    rw [routeLookupAux_eq_runMatched, hm]
    exact runMatched_err pre h post e none hpre he
  rw [handleConnection_read_ok handles stream data hread hbyte, hrun]

/-- A concrete instance of C9's theorem: the only matched handler fails. -/
theorem c9_handler_error_propagates_witness :
    handleConnection
        [("GET / HTTP/1.1\r\n", fun _ => .error (.other 7))]
        (fun _ => .ok (strToBytes "GET / HTTP/1.1\r\n"))
      = .error (.other 7) :=
  c9_handler_error_propagates
    [("GET / HTTP/1.1\r\n", fun _ => .error (.other 7))]
    (fun _ => .ok (strToBytes "GET / HTTP/1.1\r\n"))
    (strToBytes "GET / HTTP/1.1\r\n")
    [] (fun _ => .error (.other 7)) [] (.other 7)
    rfl (by decide) rfl (by simp) rfl

/-- C1 counterexample: two registered patterns are both byte-prefixes of the
same request and the claim says the first structural match in iteration
order wins, with exactly one matched handler invoked. In fact the scan loop
has no `break`: the serialized response is the SECOND match's in iteration
order (and differs from the first match's), and the second matched handler
is invoked even though the first already matched — its error becomes the
overall result. -/
theorem c1_counterexample :
    handleConnection
        [("GET / HTTP/1.1\r\n", fun _ => .ok ((HTTPResponse.new 200).with_content "first")),
         ("GET /", fun _ => .ok ((HTTPResponse.new 200).with_content "second"))]
        (fun _ => .ok (strToBytes "GET / HTTP/1.1\r\n"))
      = .ok (((HTTPResponse.new 200).with_content "second").serialize)
  ∧ ((HTTPResponse.new 200).with_content "second").serialize
      ≠ ((HTTPResponse.new 200).with_content "first").serialize
  ∧ handleConnection
        [("GET / HTTP/1.1\r\n", fun _ => .ok ((HTTPResponse.new 200).with_content "first")),
         ("GET /", fun _ => .error (.other 1))]
        (fun _ => .ok (strToBytes "GET / HTTP/1.1\r\n"))
      = .error (.other 1) :=
  ⟨rfl, by decide, rfl⟩

/-- C1 (amended): during route lookup every registered pattern that is a
byte-prefix of the request buffer has its handler invoked, in iteration
order; if a matched handler fails (all matched handlers before it
succeeding), that error is the result; and when all matched handlers succeed
the response of the LAST structural match in iteration order is the one
serialized to the connection. -/
theorem c1_last_match_wins (handles : List (String × HTTPHandle))
    (stream : Nat → ReadOutcome) (data : List Nat)
    (hread : (readPhase stream).1 = .ok data)
    (hbyte : (padBuffer data).getD 0 0 ≠ 0) :
    (∀ (h : HTTPHandle) (r : HTTPResponse),
        (∀ h' ∈ matchedHandlers handles (padBuffer data), ∃ r', h' () = .ok r') →
        (matchedHandlers handles (padBuffer data)).getLast? = some h →
        h () = .ok r →
        handleConnection handles stream = .ok r.serialize)
  ∧ (∀ (pre : List HTTPHandle) (h : HTTPHandle) (post : List HTTPHandle) (e : IOErrorKind),
        matchedHandlers handles (padBuffer data) = pre ++ h :: post →
        (∀ h' ∈ pre, ∃ r', h' () = .ok r') →
        h () = .error e →
        handleConnection handles stream = .error e) := by
  constructor
  · intro h r hall hlast hr
    have hrun : routeLookupAux (padBuffer data) handles none = .ok (some r) := by
      rw [routeLookupAux_eq_runMatched]
      exact runMatched_all_ok (matchedHandlers handles (padBuffer data)) h r none hall hlast hr
    rw [handleConnection_read_ok handles stream data hread hbyte, hrun]
  · intro pre h post e hm hpre he
    have hrun : routeLookupAux (padBuffer data) handles none = .error e := by
      rw [routeLookupAux_eq_runMatched, hm]
      exact runMatched_err pre h post e none hpre he
    rw [handleConnection_read_ok handles stream data hread hbyte, hrun]

/-- A concrete instance of C1's amended theorem: both patterns match and the
last match's response is the one produced. -/
theorem c1_last_match_wins_witness :
    handleConnection
        [("GET / HTTP/1.1\r\n", fun _ => .ok ((HTTPResponse.new 200).with_content "A")),
         ("GET /", fun _ => .ok ((HTTPResponse.new 200).with_content "B"))]
        (fun _ => .ok (strToBytes "GET / HTTP/1.1\r\n"))
      = .ok (((HTTPResponse.new 200).with_content "B").serialize) :=
  (c1_last_match_wins
      [("GET / HTTP/1.1\r\n", fun _ => .ok ((HTTPResponse.new 200).with_content "A")),
       ("GET /", fun _ => .ok ((HTTPResponse.new 200).with_content "B"))]
      (fun _ => .ok (strToBytes "GET / HTTP/1.1\r\n"))
      (strToBytes "GET / HTTP/1.1\r\n")
      rfl (by decide)).1
    (fun _ => .ok ((HTTPResponse.new 200).with_content "B"))
    ((HTTPResponse.new 200).with_content "B")
    (by intro h' hh'
        have hml : matchedHandlers
            [("GET / HTTP/1.1\r\n", fun _ => .ok ((HTTPResponse.new 200).with_content "A")),
             ("GET /", fun _ => .ok ((HTTPResponse.new 200).with_content "B"))]
            (padBuffer (strToBytes "GET / HTTP/1.1\r\n"))
          = [fun _ => .ok ((HTTPResponse.new 200).with_content "A"),
             fun _ => .ok ((HTTPResponse.new 200).with_content "B")] := rfl
        rw [hml] at hh'
        rw [List.mem_cons, List.mem_singleton] at hh'
        rcases hh' with rfl | rfl
        · exact ⟨(HTTPResponse.new 200).with_content "A", rfl⟩
        · exact ⟨(HTTPResponse.new 200).with_content "B", rfl⟩)
    rfl rfl
